import Mathlib

/-!
Verification development for the camera-acquisition and frame-delivery
component of the bug-detector repository (the `Camera` React component:
`stopCurrentStream`, `requestCameraPermission`, `checkCameraAvailability`,
and the `requestAnimationFrame` sampling loop, together with the
`localStorage`-persisted permission hint).

The embedding is a shallow one: the component's mutable fields
(`streamRef`, `videoRef.current.srcObject`, the `error`,
`isCameraAvailable` and `permissionStatus` state hooks, `localStorage`
and the `console.warn` log) become fields of an explicit `CameraState`
record, and each operation becomes a pure state-transition function.
Platform calls (`getUserMedia`, `enumerateDevices`,
`navigator.permissions.query`) are nondeterministic environment inputs,
passed as `Except`-valued outcomes.  Media streams are modelled by
identity: an append-only store `allocated` of all streams ever handed
out by the platform, each a list of per-track stopped flags;
`streamRef` holds the index of the currently owned stream, and stopping
a stream marks every one of its tracks stopped in the store.

The mount-time registration of the permission `change` listener only
matters for later platform events, which no claim here quantifies over;
`checkCameraAvailability` below models the mount-synchronous state
change (including the immediate `requestCameraPermission` calls it
makes).  `console.error` calls carry no state and are not modelled;
`console.warn` is kept because the persisted-preference contract
mentions the logged-but-not-surfaced write failure.
-/

namespace BugDetector

/-- The `permissionStatus` state hook: one of prompt, granted, denied. -/
inductive PermissionStatus where
  | prompt
  | granted
  | denied
deriving DecidableEq, Repr

/-- String constants appearing in the component. -/
def grantedStr : String := "granted"

def deniedStr : String := "denied"

def notAllowedErrorName : String := "NotAllowedError"

def videoinputKind : String := "videoinput"

def audioinputKind : String := "audioinput"

def notReadableErrorName : String := "NotReadableError"

/-- Error message set when device enumeration finds no video input. -/
def noCameraMsg : String := "No se detectó ninguna cámara. Por favor, verifica que tu dispositivo tenga una cámara disponible."

/-- Error message set when acquisition fails with NotAllowedError. -/
def deniedMsg : String := "Acceso a la cámara denegado. Por favor, permite el acceso en la configuración de tu dispositivo."

/-- Generic error message for other acquisition failures. -/
def genericAccessMsg : String := "Error al acceder a la cámara. Por favor, recarga la página o verifica los permisos del sistema."

/-- Error message set by the outer catch of `checkCameraAvailability`. -/
def checkErrMsg : String := "Error al verificar la cámara. Por favor, asegúrate de que tu navegador tenga acceso a la cámara."

/-- The `console.warn` message prefix for a failed persisted-preference write. -/
def persistWarnMsg : String := "No se pudo guardar el estado del permiso:"

/-- The component's state.  `allocated` is the append-only store of all
media streams the platform ever produced (each a list of per-track
stopped flags, `true` = stopped); `streamRef` is `streamRef.current` as
an index into that store; `videoSrc` is `videoRef.current.srcObject`;
`videoAttached` records whether `videoRef.current` is non-null;
`storage` is the `localStorage` entry for the `cameraPermission` key;
`storageWritable` tells whether `localStorage.setItem` succeeds or
throws; `warnings` is the `console.warn` log. -/
structure CameraState where
  allocated : List (List Bool)
  streamRef : Option Nat
  videoSrc : Option Nat
  videoAttached : Bool
  error : String
  isCameraAvailable : Bool
  permissionStatus : PermissionStatus
  storage : Option String
  storageWritable : Bool
  warnings : List String
deriving DecidableEq, Repr

/-- `track.stop()` applied to every track of a stream. -/
def stopAll (tracks : List Bool) : List Bool := tracks.map (fun _ => true)

/-- Mark every track of the stream at index `i` stopped in the store. -/
def stopAt : List (List Bool) → Nat → List (List Bool)
  | [], _ => []
  | s :: rest, 0 => stopAll s :: rest
  | s :: rest, Nat.succ n => s :: stopAt rest n

/-- `stopCurrentStream`: if `streamRef.current` is set, stop all its
tracks and clear the reference; otherwise do nothing. -/
def stopCurrentStream (st : CameraState) : CameraState :=
  match st.streamRef with
  | some i => { st with allocated := stopAt st.allocated i, streamRef := none }
  | none => st

/-- `try { localStorage.setItem('cameraPermission', v) } catch { console.warn(...) }`. -/
def setItemAttempt (st : CameraState) (v : String) : CameraState :=
  if st.storageWritable then { st with storage := some v }
  else { st with warnings := st.warnings ++ [persistWarnMsg] }

/-- The success continuation of `requestCameraPermission` after
`getUserMedia` resolves: a fresh stream with `k` live tracks is stored
as the Active Stream; if a video element is attached it becomes the
video source, permission turns granted, the error clears, and the
preference write is attempted. -/
def onGumSuccess (st : CameraState) (k : Nat) : CameraState :=
  let idx := st.allocated.length
  let st2 := { st with allocated := st.allocated ++ [List.replicate k false],
                       streamRef := some idx }
  if st2.videoAttached then
    setItemAttempt { st2 with videoSrc := some idx,
                              permissionStatus := PermissionStatus.granted,
                              error := "" } grantedStr
  else st2

/-- The catch clause of `requestCameraPermission`: `NotAllowedError`
turns permission denied, sets the denied message and attempts to
persist `denied`; any other failure sets the generic message. -/
def catchClause (st : CameraState) (name : String) : CameraState :=
  if name = notAllowedErrorName then
    setItemAttempt { st with permissionStatus := PermissionStatus.denied,
                             error := deniedMsg } deniedStr
  else { st with error := genericAccessMsg }

/-- The try-block body of `requestCameraPermission`: stopping the
current stream never throws; awaiting `getUserMedia` rethrows the
platform rejection (carried in `gum`); the success continuation never
throws (its only throwing call, `setItem`, is wrapped in an inner
try). -/
def gumTryBody (st1 : CameraState) (gum : Except String Nat) : Except String CameraState :=
  match gum with
  | Except.ok k => Except.ok (onGumSuccess st1 k)
  | Except.error name => Except.error name

/-- `requestCameraPermission` with its try/catch structure explicit:
the try body may throw, the surrounding catch converts every failure
into state, so the whole call always returns `Except.ok`. -/
def requestCameraPermissionE (st : CameraState) (gum : Except String Nat) :
    Except String CameraState :=
  let st1 := stopCurrentStream st
  match gumTryBody st1 gum with
  | Except.ok s => Except.ok s
  | Except.error name => Except.ok (catchClause st1 name)

/-- `requestCameraPermission` as a total state transition. -/
def requestCameraPermission (st : CameraState) (gum : Except String Nat) : CameraState :=
  match requestCameraPermissionE st gum with
  | Except.ok s => s
  | Except.error _ => st

/-- The platform inputs consumed during one mount:
the outcome of `enumerateDevices` (a list of device kinds),
whether `navigator.permissions` exists, the outcome of
`permissions.query`, and the outcome of `getUserMedia` should
`requestCameraPermission` be reached. -/
structure MountEnv where
  devices : Except Unit (List String)
  permissionsApiPresent : Bool
  query : Except Unit PermissionStatus
  gum : Except String Nat
deriving Repr

/-- `checkCameraAvailability` (the mount effect body), with the outer
catch inlined at each throwing platform call: a persisted `granted`
hint short-circuits straight into `requestCameraPermission`; otherwise
devices are enumerated, availability is set, a missing camera is
terminal, and when the permission-query API is present the live state
is loaded and, if granted, acquisition starts at once. -/
def checkCameraAvailability (st : CameraState) (env : MountEnv) : CameraState :=
  if st.storage = some grantedStr then
    requestCameraPermission st env.gum
  else
    match env.devices with
    | Except.error _ => { st with error := checkErrMsg }
    | Except.ok kinds =>
      let hasCamera := kinds.any (fun k => k = videoinputKind)
      let st1 := { st with isCameraAvailable := hasCamera }
      if hasCamera then
        if env.permissionsApiPresent then
          match env.query with
          | Except.error _ => { st1 with error := checkErrMsg }
          | Except.ok p =>
            let st2 := { st1 with permissionStatus := p }
            if p = PermissionStatus.granted then requestCameraPermission st2 env.gum
            else st2
        else st1
      else { st1 with error := noCameraMsg }

/-- The guard of the sampling effect (the early return at its head plus
the 2d-context check): the loop machinery is installed only when a
video element and a canvas element are attached, the canvas yields a
context, `isCameraAvailable` is true and `permissionStatus` is
granted. -/
def samplingLoopInstalled (st : CameraState) (canvasAttached hasContext : Bool) : Bool :=
  st.videoAttached && canvasAttached && st.isCameraAvailable &&
    decide (st.permissionStatus = PermissionStatus.granted) && hasContext

/-- A stream is live when some track of it is not stopped. -/
def streamLive (tracks : List Bool) : Bool := tracks.any (fun t => !t)

/-- Number of live streams in the store. -/
def liveCount (st : CameraState) : Nat := st.allocated.countP (fun s => streamLive s)

/-- Fold a sequence of `requestCameraPermission` calls, each with its
own `getUserMedia` outcome. -/
def iterateRequests (st : CameraState) (outcomes : List (Except String Nat)) : CameraState :=
  outcomes.foldl requestCameraPermission st

/-- The component state right after the initial render: no stream, no
video source, empty error, availability false, permission prompt, and
the given persisted hint / storage writability / video attachment. -/
def cameraInit (sv : Option String) (writable va : Bool) : CameraState :=
  { allocated := []
    streamRef := none
    videoSrc := none
    videoAttached := va
    error := ""
    isCameraAvailable := false
    permissionStatus := PermissionStatus.prompt
    storage := sv
    storageWritable := writable
    warnings := [] }

/-- A `getUserMedia` outcome is a success with a positive track count. -/
def isOkPos (o : Except String Nat) : Bool :=
  match o with
  | Except.ok k => decide (0 < k)
  | Except.error _ => false

/-!  The sampling loop.  The effect closes over a mutable local
`animationFrame` holding the id of the most recently scheduled
animation-frame request; `processFrame` copies a frame (when the video
reports `HAVE_ENOUGH_DATA`) into a canvas resized to the video's native
dimensions, delivers the resulting `ImageData` to `onFrame`, and always
reschedules itself; the `play` listener schedules the first tick; the
cleanup cancels the request recorded in `animationFrame`.  `pending`
is the browser's set of scheduled-but-not-yet-fired request ids,
`nextId` the fresh-id counter, `frames` the list of delivered frame
dimensions in order. -/

/-- State of the sampling loop and its scheduler. -/
structure SamplingState where
  pending : List Nat
  nextId : Nat
  animationFrame : Option Nat
  frames : List (Nat × Nat)
deriving DecidableEq, Repr

/-- Events acting on the sampling loop: the video's `play` signal, the
browser firing the animation-frame request `id` while the video reports
readiness `ready` and native dimensions `w` and `h`, and the effect
cleanup (`cancelAnimationFrame(animationFrame)`). -/
inductive SamplingEvent where
  | play
  | tick (id : Nat) (ready : Bool) (w h : Nat)
  | cancel
deriving DecidableEq, Repr

/-- `animationFrame = requestAnimationFrame(processFrame)`. -/
def schedule (s : SamplingState) : SamplingState :=
  { s with pending := s.pending ++ [s.nextId]
           animationFrame := some s.nextId
           nextId := s.nextId + 1 }

/-- `processFrame`: when the video has enough data, deliver a buffer
sized to the current native width and height; in every case schedule
the next tick. -/
def processFrame (s : SamplingState) (ready : Bool) (w h : Nat) : SamplingState :=
  let s1 := if ready then { s with frames := s.frames ++ [(w, h)] } else s
  schedule s1

/-- One step of the sampling loop.  A tick of a request that is no
longer pending (already fired or cancelled) does nothing, matching the
browser never firing it. -/
def samplingStep (s : SamplingState) : SamplingEvent → SamplingState
  | SamplingEvent.play => schedule s
  | SamplingEvent.tick id ready w h =>
    if id ∈ s.pending then processFrame { s with pending := s.pending.erase id } ready w h
    else s
  | SamplingEvent.cancel =>
    match s.animationFrame with
    | some id => { s with pending := s.pending.erase id }
    | none => s

/-- State at effect setup: nothing scheduled, nothing delivered. -/
def samplingInit : SamplingState :=
  { pending := [], nextId := 0, animationFrame := none, frames := [] }

/-- Run a sequence of sampling events. -/
def samplingRun (s : SamplingState) (evs : List SamplingEvent) : SamplingState :=
  evs.foldl samplingStep s

/-- Recognise the `play` event. -/
def isPlay (e : SamplingEvent) : Bool :=
  match e with
  | SamplingEvent.play => true
  | _ => false

/-- Recognise tick events. -/
def isTick (e : SamplingEvent) : Bool :=
  match e with
  | SamplingEvent.tick _ _ _ _ => true
  | _ => false

/-- Number of `play` events in a trace. -/
def playCount (evs : List SamplingEvent) : Nat := evs.countP isPlay

/-- Every stream in the store has all its tracks stopped. -/
def allStoppedL (l : List (List Bool)) : Prop :=
  ∀ j, j < l.length → streamLive (l.getD j []) = false

/-- Shape invariant of reachable camera states: when no stream is
owned every allocated stream is stopped; when one is owned it is the
most recently allocated one and every earlier stream is stopped. -/
def GoodShape (st : CameraState) : Prop :=
  (st.streamRef = none → allStoppedL st.allocated) ∧
  (∀ i, st.streamRef = some i → i + 1 = st.allocated.length ∧
    ∀ j, j < i → streamLive (st.allocated.getD j []) = false)

/-- Invariant of the sampling scheduler along traces with at most one
`play`: at most one request is pending, and it is the one recorded in
`animationFrame`. -/
def samplingInv (s : SamplingState) : Prop :=
  s.pending = [] ∨ ∃ a, s.pending = [a] ∧ s.animationFrame = some a

/-- Mount environment of the persisted-granted round trip: one video
input present, permission-query API present and reporting granted,
`getUserMedia` succeeding with a one-track stream. -/
def roundTripEnv : MountEnv :=
  { devices := Except.ok [videoinputKind]
    permissionsApiPresent := true
    query := Except.ok PermissionStatus.granted
    gum := Except.ok 1 }

/-- The state after mounting with a persisted `granted` hint under
`roundTripEnv`.  The initial render happens with
`isCameraAvailable = false`, so no video element is attached when the
mount effect runs. -/
def roundTripState : CameraState :=
  checkCameraAvailability (cameraInit (some grantedStr) true false) roundTripEnv

/-! Basic lemmas about `stopCurrentStream` and `requestCameraPermission`. -/

theorem stopAt_length (l : List (List Bool)) (i : Nat) : (stopAt l i).length = l.length := by
  induction l generalizing i with
  | nil => rfl
  | cons s rest ih =>
    cases i with
    | zero => rfl
    | succ n => simp [stopAt, ih]

@[simp] theorem scs_streamRef (st : CameraState) : (stopCurrentStream st).streamRef = none := by
  cases h : st.streamRef <;> simp [stopCurrentStream, h]

@[simp] theorem scs_alloc_length (st : CameraState) :
    (stopCurrentStream st).allocated.length = st.allocated.length := by
  cases h : st.streamRef <;> simp [stopCurrentStream, h, stopAt_length]

@[simp] theorem scs_videoAttached (st : CameraState) :
    (stopCurrentStream st).videoAttached = st.videoAttached := by
  cases h : st.streamRef <;> simp [stopCurrentStream, h]

@[simp] theorem scs_error (st : CameraState) : (stopCurrentStream st).error = st.error := by
  cases h : st.streamRef <;> simp [stopCurrentStream, h]

@[simp] theorem scs_isCameraAvailable (st : CameraState) :
    (stopCurrentStream st).isCameraAvailable = st.isCameraAvailable := by
  cases h : st.streamRef <;> simp [stopCurrentStream, h]

@[simp] theorem scs_permissionStatus (st : CameraState) :
    (stopCurrentStream st).permissionStatus = st.permissionStatus := by
  cases h : st.streamRef <;> simp [stopCurrentStream, h]

@[simp] theorem scs_storage (st : CameraState) : (stopCurrentStream st).storage = st.storage := by
  cases h : st.streamRef <;> simp [stopCurrentStream, h]

@[simp] theorem scs_storageWritable (st : CameraState) :
    (stopCurrentStream st).storageWritable = st.storageWritable := by
  cases h : st.streamRef <;> simp [stopCurrentStream, h]

@[simp] theorem scs_warnings (st : CameraState) :
    (stopCurrentStream st).warnings = st.warnings := by
  cases h : st.streamRef <;> simp [stopCurrentStream, h]

theorem rcp_ok_eq (st : CameraState) (k : Nat) :
    requestCameraPermission st (Except.ok k) = onGumSuccess (stopCurrentStream st) k := rfl

theorem rcp_err_eq (st : CameraState) (name : String) :
    requestCameraPermission st (Except.error name) = catchClause (stopCurrentStream st) name := rfl

theorem rcpE_ok_eq (st : CameraState) (gum : Except String Nat) :
    requestCameraPermissionE st gum = Except.ok (requestCameraPermission st gum) := by
  cases gum <;> rfl

theorem onGumSuccess_allocated (s : CameraState) (k : Nat) :
    (onGumSuccess s k).allocated = s.allocated ++ [List.replicate k false] := by
  cases hva : s.videoAttached <;> cases hw : s.storageWritable <;>
    simp [onGumSuccess, setItemAttempt, hva, hw]

theorem onGumSuccess_streamRef (s : CameraState) (k : Nat) :
    (onGumSuccess s k).streamRef = some s.allocated.length := by
  cases hva : s.videoAttached <;> cases hw : s.storageWritable <;>
    simp [onGumSuccess, setItemAttempt, hva, hw]

/-- C3: `requestCameraPermission` never throws past its boundary: for
every `getUserMedia` outcome the call returns `Except.ok` (the catch
converts every failure into state); a consent-denied failure sets
Permission State to denied, sets the denied message and persists
`denied` (when storage is writable); any other failure sets the
generic error message. -/
theorem claim3_request_never_throws (st : CameraState) (gum : Except String Nat) :
    requestCameraPermissionE st gum = Except.ok (requestCameraPermission st gum) ∧
    (∀ name, gum = Except.error name → name = notAllowedErrorName →
      (requestCameraPermission st gum).permissionStatus = PermissionStatus.denied ∧
      (requestCameraPermission st gum).error = deniedMsg ∧
      (st.storageWritable = true →
        (requestCameraPermission st gum).storage = some deniedStr)) ∧
    (∀ name, gum = Except.error name → ¬ name = notAllowedErrorName →
      (requestCameraPermission st gum).error = genericAccessMsg ∧
      (requestCameraPermission st gum).permissionStatus = st.permissionStatus) := by
  refine ⟨rcpE_ok_eq st gum, ?_, ?_⟩
  · rintro name rfl hname
    rw [rcp_err_eq]
    unfold catchClause
    rw [if_pos hname]
    unfold setItemAttempt
    cases hw : st.storageWritable <;> simp [hw]
  · rintro name rfl hname
    rw [rcp_err_eq]
    unfold catchClause
    rw [if_neg hname]
    exact ⟨rfl, scs_permissionStatus st⟩

theorem claim3_witness :
    requestCameraPermissionE (cameraInit none true true) (Except.error notAllowedErrorName) =
      Except.ok (requestCameraPermission (cameraInit none true true)
        (Except.error notAllowedErrorName)) ∧
    (requestCameraPermission (cameraInit none true true)
      (Except.error notAllowedErrorName)).permissionStatus = PermissionStatus.denied ∧
    (requestCameraPermission (cameraInit none true true)
      (Except.error notAllowedErrorName)).storage = some deniedStr := by
  have h := claim3_request_never_throws (cameraInit none true true)
    (Except.error notAllowedErrorName)
  have h2 := h.2.1 notAllowedErrorName rfl rfl
  exact ⟨h.1, h2.1, h2.2.2 rfl⟩

/-- C4: when a persisted preference of granted short-circuits the mount
into an acquisition attempt but the live platform permission is denied
(`getUserMedia` rejects with NotAllowedError), the live state wins: the
final Permission State is denied, and the persisted hint is even
overwritten with denied. -/
theorem claim4_live_state_wins (st : CameraState) (env : MountEnv)
    (hsaved : st.storage = some grantedStr)
    (hlive : env.gum = Except.error notAllowedErrorName) :
    (checkCameraAvailability st env).permissionStatus = PermissionStatus.denied ∧
    (st.storageWritable = true →
      (checkCameraAvailability st env).storage = some deniedStr) := by
  unfold checkCameraAvailability
  rw [if_pos hsaved, hlive, rcp_err_eq]
  unfold catchClause
  rw [if_pos rfl]
  unfold setItemAttempt
  cases hw : st.storageWritable <;> simp [hw]

theorem claim4_witness :
    (checkCameraAvailability (cameraInit (some grantedStr) true false)
      { devices := Except.ok [], permissionsApiPresent := false,
        query := Except.ok PermissionStatus.prompt,
        gum := Except.error notAllowedErrorName }).permissionStatus =
      PermissionStatus.denied ∧
    (checkCameraAvailability (cameraInit (some grantedStr) true false)
      { devices := Except.ok [], permissionsApiPresent := false,
        query := Except.ok PermissionStatus.prompt,
        gum := Except.error notAllowedErrorName }).storage = some deniedStr := by
  have h := claim4_live_state_wins (cameraInit (some grantedStr) true false)
    { devices := Except.ok [], permissionsApiPresent := false,
      query := Except.ok PermissionStatus.prompt,
      gum := Except.error notAllowedErrorName } rfl rfl
  exact ⟨h.1, h.2 rfl⟩

/-- C6: when no persisted granted hint short-circuits the mount and
device enumeration reports no video input, Permission State keeps its
value, the no-camera message is set, availability is set false, and no
further action is taken (no stream acquired, storage untouched). -/
theorem claim6_no_camera_terminal (st : CameraState) (env : MountEnv) (kinds : List String)
    (hsaved : ¬ st.storage = some grantedStr)
    (hdev : env.devices = Except.ok kinds)
    (hnovid : kinds.any (fun k => k = videoinputKind) = false) :
    (checkCameraAvailability st env).permissionStatus = st.permissionStatus ∧
    (checkCameraAvailability st env).error = noCameraMsg ∧
    (checkCameraAvailability st env).isCameraAvailable = false ∧
    (checkCameraAvailability st env).streamRef = st.streamRef ∧
    (checkCameraAvailability st env).allocated = st.allocated ∧
    (checkCameraAvailability st env).storage = st.storage := by
  unfold checkCameraAvailability
  rw [if_neg hsaved, hdev]
  simp [hnovid]

theorem claim6_witness :
    (checkCameraAvailability (cameraInit none true false)
      { devices := Except.ok [audioinputKind], permissionsApiPresent := true,
        query := Except.ok PermissionStatus.prompt,
        gum := Except.ok 1 }).permissionStatus = PermissionStatus.prompt ∧
    (checkCameraAvailability (cameraInit none true false)
      { devices := Except.ok [audioinputKind], permissionsApiPresent := true,
        query := Except.ok PermissionStatus.prompt,
        gum := Except.ok 1 }).error = noCameraMsg ∧
    (checkCameraAvailability (cameraInit none true false)
      { devices := Except.ok [audioinputKind], permissionsApiPresent := true,
        query := Except.ok PermissionStatus.prompt,
        gum := Except.ok 1 }).allocated = [] := by
  have h := claim6_no_camera_terminal (cameraInit none true false)
    { devices := Except.ok [audioinputKind], permissionsApiPresent := true,
      query := Except.ok PermissionStatus.prompt, gum := Except.ok 1 }
    [audioinputKind] (by decide) rfl (by decide)
  exact ⟨h.1, h.2.1, h.2.2.2.2.1⟩

/-- C8: every acquisition failure whose reason is not NotAllowedError
leaves Permission State unchanged, sets only the generic error message,
writes nothing to the persisted preference and logs no warning. -/
theorem claim8_other_failure_keeps_permission (st : CameraState) (name : String)
    (hname : ¬ name = notAllowedErrorName) :
    (requestCameraPermission st (Except.error name)).permissionStatus =
      st.permissionStatus ∧
    (requestCameraPermission st (Except.error name)).error = genericAccessMsg ∧
    (requestCameraPermission st (Except.error name)).storage = st.storage ∧
    (requestCameraPermission st (Except.error name)).warnings = st.warnings := by
  rw [rcp_err_eq]
  unfold catchClause
  rw [if_neg hname]
  exact ⟨scs_permissionStatus st, rfl, scs_storage st, scs_warnings st⟩

theorem claim8_witness :
    (requestCameraPermission (cameraInit none true true)
      (Except.error notReadableErrorName)).permissionStatus = PermissionStatus.prompt ∧
    (requestCameraPermission (cameraInit none true true)
      (Except.error notReadableErrorName)).error = genericAccessMsg ∧
    (requestCameraPermission (cameraInit none true true)
      (Except.error notReadableErrorName)).storage = none := by
  have h := claim8_other_failure_keeps_permission (cameraInit none true true)
    notReadableErrorName (by decide)
  exact ⟨h.1, h.2.1, h.2.2.1⟩

/-- C9: a failed persisted-preference write is logged and never
surfaced: with storage unwritable, both write sites (the success path
and the consent-denied path) leave storage untouched and append the
warning, while the rest of the outcome — stream stored, permission and
error transitions — is exactly as in the writable case, and the call
still does not throw. -/
theorem claim9_persist_failure_logged_only (st : CameraState) (k : Nat)
    (hw : st.storageWritable = false) :
    (st.videoAttached = true →
      (requestCameraPermission st (Except.ok k)).storage = st.storage ∧
      (requestCameraPermission st (Except.ok k)).warnings =
        st.warnings ++ [persistWarnMsg] ∧
      (requestCameraPermission st (Except.ok k)).permissionStatus =
        PermissionStatus.granted ∧
      (requestCameraPermission st (Except.ok k)).error = "" ∧
      (requestCameraPermission st (Except.ok k)).streamRef =
        some st.allocated.length) ∧
    ((requestCameraPermission st (Except.error notAllowedErrorName)).storage =
        st.storage ∧
      (requestCameraPermission st (Except.error notAllowedErrorName)).warnings =
        st.warnings ++ [persistWarnMsg] ∧
      (requestCameraPermission st (Except.error notAllowedErrorName)).permissionStatus =
        PermissionStatus.denied ∧
      (requestCameraPermission st (Except.error notAllowedErrorName)).error =
        deniedMsg) ∧
    requestCameraPermissionE st (Except.ok k) =
      Except.ok (requestCameraPermission st (Except.ok k)) := by
  refine ⟨?_, ?_, rcpE_ok_eq st (Except.ok k)⟩
  · intro hva
    rw [rcp_ok_eq]
    unfold onGumSuccess setItemAttempt
    simp [hva, hw]
  · rw [rcp_err_eq]
    unfold catchClause setItemAttempt
    simp [hw]

theorem claim9_witness :
    (requestCameraPermission (cameraInit none false true) (Except.ok 1)).storage = none ∧
    (requestCameraPermission (cameraInit none false true) (Except.ok 1)).warnings =
      [persistWarnMsg] ∧
    (requestCameraPermission (cameraInit none false true) (Except.ok 1)).permissionStatus =
      PermissionStatus.granted ∧
    (requestCameraPermission (cameraInit none false true) (Except.ok 1)).streamRef =
      some 0 := by
  have h := (claim9_persist_failure_logged_only (cameraInit none false true) 1 rfl).1 rfl
  exact ⟨h.1, h.2.1, h.2.2.1, h.2.2.2.2⟩

/-- C10: on a successful acquisition the success postconditions
(granted, error cleared, preference persisted) are applied only when a
video element is attached; with no video element the fresh stream is
still stored as the Active Stream but Permission State, Error State,
storage and the warning log are all left unchanged. -/
theorem claim10_success_needs_video (st : CameraState) (k : Nat) :
    (st.videoAttached = false →
      (requestCameraPermission st (Except.ok k)).streamRef =
        some st.allocated.length ∧
      (requestCameraPermission st (Except.ok k)).allocated.length =
        st.allocated.length + 1 ∧
      (requestCameraPermission st (Except.ok k)).permissionStatus =
        st.permissionStatus ∧
      (requestCameraPermission st (Except.ok k)).error = st.error ∧
      (requestCameraPermission st (Except.ok k)).storage = st.storage ∧
      (requestCameraPermission st (Except.ok k)).warnings = st.warnings) ∧
    (st.videoAttached = true →
      (requestCameraPermission st (Except.ok k)).permissionStatus =
        PermissionStatus.granted ∧
      (requestCameraPermission st (Except.ok k)).error = "" ∧
      (st.storageWritable = true →
        (requestCameraPermission st (Except.ok k)).storage = some grantedStr) ∧
      (requestCameraPermission st (Except.ok k)).streamRef =
        some st.allocated.length) := by
  constructor
  · intro hva
    rw [rcp_ok_eq]
    unfold onGumSuccess
    simp [hva]
  · intro hva
    rw [rcp_ok_eq]
    unfold onGumSuccess setItemAttempt
    cases hw : st.storageWritable <;> simp [hva, hw]

theorem claim10_witness :
    (requestCameraPermission (cameraInit none true false) (Except.ok 2)).permissionStatus =
      PermissionStatus.prompt ∧
    (requestCameraPermission (cameraInit none true false) (Except.ok 2)).streamRef =
      some 0 ∧
    (requestCameraPermission (cameraInit none true true) (Except.ok 2)).permissionStatus =
      PermissionStatus.granted ∧
    (requestCameraPermission (cameraInit none true true) (Except.ok 2)).storage =
      some grantedStr := by
  have h1 := (claim10_success_needs_video (cameraInit none true false) 2).1 rfl
  have h2 := (claim10_success_needs_video (cameraInit none true true) 2).2 rfl
  exact ⟨h1.2.2.1, h1.1, h2.1, h2.2.2.1 rfl⟩

/-- C5 (code bug): in the persisted-granted round trip — mount with a
stored `granted` hint under a platform that still grants — acquisition
succeeds (a live stream is stored at index 0) but the short-circuit
path never sets `isCameraAvailable`, so it stays `false`, the sampling
effect guard rejects every configuration, and sampling never starts;
`permissionStatus` even stays `prompt` because the error panel rendered
by `isCameraAvailable = false` means no video element is attached. -/
theorem claim5_roundtrip_sampling_blocked :
    roundTripState.streamRef = some 0 ∧
    streamLive (roundTripState.allocated.getD 0 []) = true ∧
    roundTripState.isCameraAvailable = false ∧
    roundTripState.permissionStatus = PermissionStatus.prompt ∧
    (∀ ca ctx : Bool, samplingLoopInstalled roundTripState ca ctx = false) :=
  ⟨rfl, rfl, rfl, rfl, fun _ _ => rfl⟩

/-! Lemmas about the sampling loop. -/

theorem samplingStep_noop (s : SamplingState) (e : SamplingEvent)
    (h : s.pending = []) (he : isPlay e = false) : samplingStep s e = s := by
  cases e with
  | play => simp [isPlay] at he
  | tick id ready w hh => simp [samplingStep, h]
  | cancel =>
    cases s with
    | mk p n a f =>
      cases a with
      | none => rfl
      | some x => simp_all [samplingStep]

theorem samplingStep_tick_mem (s : SamplingState) (id : Nat) (ready : Bool) (w h : Nat)
    (hm : id ∈ s.pending) :
    (samplingStep s (SamplingEvent.tick id ready w h)).pending =
      s.pending.erase id ++ [s.nextId] ∧
    (samplingStep s (SamplingEvent.tick id ready w h)).animationFrame = some s.nextId ∧
    (samplingStep s (SamplingEvent.tick id ready w h)).nextId = s.nextId + 1 ∧
    (samplingStep s (SamplingEvent.tick id ready w h)).frames =
      (if ready then s.frames ++ [(w, h)] else s.frames) := by
  have hstep : samplingStep s (SamplingEvent.tick id ready w h) =
      if id ∈ s.pending then processFrame { s with pending := s.pending.erase id } ready w h
      else s := rfl
  rw [hstep, if_pos hm]
  unfold processFrame schedule
  cases ready <;> simp

theorem samplingStep_inv (s : SamplingState) (e : SamplingEvent)
    (h : samplingInv s) (he : isPlay e = false) : samplingInv (samplingStep s e) := by
  cases e with
  | play => simp [isPlay] at he
  | tick id ready w hh =>
    by_cases hm : id ∈ s.pending
    · rcases h with h0 | ⟨a, hp, ha⟩
      · rw [h0] at hm
        simp at hm
      · have hid : id = a := by
          rw [hp] at hm
          simpa using hm
        subst hid
        obtain ⟨h1, h2, _, _⟩ := samplingStep_tick_mem s id ready w hh hm
        right
        refine ⟨s.nextId, ?_, h2⟩
        rw [h1, hp]
        simp
    · rw [samplingStep]
      simp only [if_neg hm]
      exact h
  | cancel =>
    rcases h with h0 | ⟨a, hp, ha⟩
    · rw [samplingStep_noop s SamplingEvent.cancel h0 rfl]
      exact Or.inl h0
    · left
      simp [samplingStep, ha, hp]

theorem samplingStep_cancel_pending (s : SamplingState) (h : samplingInv s) :
    (samplingStep s SamplingEvent.cancel).pending = [] ∧
    (samplingStep s SamplingEvent.cancel).frames = s.frames := by
  rcases h with h0 | ⟨a, hp, ha⟩
  · cases haf : s.animationFrame <;> simp [samplingStep, haf, h0]
  · simp [samplingStep, ha, hp]

theorem playCount_cons_zero (e : SamplingEvent) (rest : List SamplingEvent)
    (hpl : playCount (e :: rest) = 0) : playCount rest = 0 ∧ isPlay e = false := by
  by_cases hpe : isPlay e = true
  · exfalso
    simp [playCount, List.countP_cons, hpe] at hpl
  · refine ⟨?_, by simpa using hpe⟩
    simpa [playCount, List.countP_cons, hpe] using hpl

theorem samplingRun_noplay_noop (evs : List SamplingEvent) (s : SamplingState)
    (h : s.pending = []) (hpl : playCount evs = 0) : samplingRun s evs = s := by
  induction evs generalizing s with
  | nil => rfl
  | cons e rest ih =>
    obtain ⟨h1, h2⟩ := playCount_cons_zero e rest hpl
    have hstep : samplingRun s (e :: rest) = samplingRun (samplingStep s e) rest := rfl
    rw [hstep, samplingStep_noop s e h h2]
    exact ih s h h1

theorem samplingRun_inv_noplay (evs : List SamplingEvent) (s : SamplingState)
    (h : samplingInv s) (hpl : playCount evs = 0) : samplingInv (samplingRun s evs) := by
  induction evs generalizing s with
  | nil => exact h
  | cons e rest ih =>
    obtain ⟨h1, h2⟩ := playCount_cons_zero e rest hpl
    have hstep : samplingRun s (e :: rest) = samplingRun (samplingStep s e) rest := rfl
    rw [hstep]
    exact ih (samplingStep s e) (samplingStep_inv s e h h2) h1

theorem samplingRun_inv_le_one_play (evs : List SamplingEvent) (s : SamplingState)
    (h : s.pending = []) (hpl : playCount evs ≤ 1) : samplingInv (samplingRun s evs) := by
  induction evs generalizing s with
  | nil => exact Or.inl h
  | cons e rest ih =>
    have hstep : samplingRun s (e :: rest) = samplingRun (samplingStep s e) rest := rfl
    by_cases hpe : isPlay e = true
    · have he : e = SamplingEvent.play := by
        cases e <;> simp [isPlay] at hpe ⊢
      subst he
      have hrest : playCount rest = 0 := by
        simpa [playCount, List.countP_cons, isPlay] using hpl
      have hinv : samplingInv (samplingStep s SamplingEvent.play) := by
        right
        exact ⟨s.nextId, by simp [samplingStep, schedule, h], by simp [samplingStep, schedule]⟩
      rw [hstep]
      exact samplingRun_inv_noplay rest _ hinv hrest
    · have he : isPlay e = false := by simpa using hpe
      rw [hstep, samplingStep_noop s e h he]
      refine ih s h (le_trans ?_ hpl)
      simp [playCount, List.countP_cons]

/-- C2 counterexample: when the video's `play` signal fires twice
before cleanup, two animation-frame loops are pending but
`animationFrame` records only the later one; the cleanup cancels only
that one, and a tick of the surviving request after cancellation still
delivers a frame to the callback. -/
theorem claim2_counterexample :
    (samplingRun samplingInit [SamplingEvent.play, SamplingEvent.play, SamplingEvent.cancel,
        SamplingEvent.tick 0 true 640 480]).frames = [(640, 480)] ∧
    (samplingRun samplingInit [SamplingEvent.play, SamplingEvent.play,
        SamplingEvent.cancel]).frames = [] :=
  ⟨rfl, rfl⟩

/-- C2 amended: provided the playback-started signal fired at most once
before cleanup (so the single pending request is the one recorded in
`animationFrame`), the cleanup cancels it: any number of further ticks
delivers zero further frames, and cancelling a second time is a
no-op. -/
theorem claim2_cancellation_single_play (evs ts : List SamplingEvent)
    (hpl : playCount evs ≤ 1) (hts : ∀ e ∈ ts, isTick e = true) :
    (samplingRun (samplingStep (samplingRun samplingInit evs) SamplingEvent.cancel)
        ts).frames =
      (samplingRun samplingInit evs).frames ∧
    samplingStep (samplingStep (samplingRun samplingInit evs) SamplingEvent.cancel)
        SamplingEvent.cancel =
      samplingStep (samplingRun samplingInit evs) SamplingEvent.cancel := by
  have hinv : samplingInv (samplingRun samplingInit evs) :=
    samplingRun_inv_le_one_play evs samplingInit rfl hpl
  obtain ⟨hp, hf⟩ := samplingStep_cancel_pending (samplingRun samplingInit evs) hinv
  have hts0 : playCount ts = 0 := by
    rw [playCount, List.countP_eq_zero]
    intro e hme
    have := hts e hme
    cases e <;> simp_all [isPlay, isTick]
  constructor
  · rw [samplingRun_noplay_noop ts _ hp hts0, hf]
  · exact samplingStep_noop _ SamplingEvent.cancel hp rfl

theorem claim2_witness :
    playCount [SamplingEvent.play, SamplingEvent.tick 0 true 640 480] ≤ 1 ∧
    (samplingRun (samplingStep (samplingRun samplingInit
        [SamplingEvent.play, SamplingEvent.tick 0 true 640 480]) SamplingEvent.cancel)
        [SamplingEvent.tick 1 true 320 240, SamplingEvent.tick 2 true 320 240]).frames =
      (samplingRun samplingInit
        [SamplingEvent.play, SamplingEvent.tick 0 true 640 480]).frames := by
  refine ⟨by decide, ?_⟩
  exact (claim2_cancellation_single_play
    [SamplingEvent.play, SamplingEvent.tick 0 true 640 480]
    [SamplingEvent.tick 1 true 320 240, SamplingEvent.tick 2 true 320 240]
    (by decide) (by decide)).1

/-- C7: on a tick of a pending request, if the video reports enough
data a buffer sized exactly to its current native width and height is
appended to the delivered frames, otherwise nothing is delivered; in
both cases the next tick is scheduled (a fresh request becomes pending
and is recorded in `animationFrame`); and the loop starts only after
the `play` signal: a trace with no `play` event delivers no frames. -/
theorem claim7_tick_delivery (s : SamplingState) (id : Nat) (ready : Bool) (w h : Nat)
    (hm : id ∈ s.pending) :
    ((ready = true →
        (samplingStep s (SamplingEvent.tick id ready w h)).frames = s.frames ++ [(w, h)]) ∧
      (ready = false →
        (samplingStep s (SamplingEvent.tick id ready w h)).frames = s.frames) ∧
      (samplingStep s (SamplingEvent.tick id ready w h)).pending =
        s.pending.erase id ++ [s.nextId] ∧
      (samplingStep s (SamplingEvent.tick id ready w h)).animationFrame = some s.nextId) ∧
    (∀ evs : List SamplingEvent, playCount evs = 0 →
      (samplingRun samplingInit evs).frames = []) := by
  obtain ⟨h1, h2, _, h4⟩ := samplingStep_tick_mem s id ready w h hm
  refine ⟨⟨?_, ?_, h1, h2⟩, ?_⟩
  · intro hr
    rw [h4, if_pos hr]
  · intro hr
    rw [h4, hr]
    simp
  · intro evs hpl
    rw [samplingRun_noplay_noop evs samplingInit rfl hpl]
    rfl

theorem claim7_witness :
    (samplingStep ⟨[0], 1, some 0, []⟩ (SamplingEvent.tick 0 true 640 480)).frames =
      [(640, 480)] ∧
    (samplingStep ⟨[0], 1, some 0, []⟩ (SamplingEvent.tick 0 true 640 480)).pending = [1] ∧
    (samplingRun samplingInit [SamplingEvent.cancel, SamplingEvent.tick 0 true 9 9]).frames =
      [] := by
  have h := claim7_tick_delivery ⟨[0], 1, some 0, []⟩ 0 true 640 480 (by decide)
  exact ⟨h.1.1 rfl, h.1.2.2.1, h.2 [SamplingEvent.cancel, SamplingEvent.tick 0 true 9 9]
    (by decide)⟩

/-! Stream-lifecycle lemmas for the single-active-stream invariant. -/

theorem streamLive_stopAll (ts : List Bool) : streamLive (stopAll ts) = false := by
  induction ts with
  | nil => rfl
  | cons t r ih => simp [streamLive, stopAll]

theorem streamLive_replicate_false (k : Nat) :
    streamLive (List.replicate k false) = decide (0 < k) := by
  cases k with
  | zero => rfl
  | succ n => simp [streamLive, List.replicate_succ]

theorem stopAt_getD_eq (l : List (List Bool)) (i : Nat) (h : i < l.length) :
    (stopAt l i).getD i [] = stopAll (l.getD i []) := by
  induction l generalizing i with
  | nil => simp at h
  | cons s rest ih =>
    cases i with
    | zero => rfl
    | succ n =>
      simp only [stopAt, List.getD_cons_succ]
      exact ih n (by simpa using Nat.lt_of_succ_lt_succ h)

theorem stopAt_getD_ne (l : List (List Bool)) (i j : Nat) (h : ¬ j = i) :
    (stopAt l i).getD j [] = l.getD j [] := by
  induction l generalizing i j with
  | nil => cases i <;> rfl
  | cons s rest ih =>
    cases i with
    | zero =>
      cases j with
      | zero => exact absurd rfl h
      | succ m => rfl
    | succ n =>
      cases j with
      | zero => rfl
      | succ m =>
        simp only [stopAt, List.getD_cons_succ]
        exact ih n m (fun he => h (by rw [he]))

theorem scs_allStopped (st : CameraState) (h : GoodShape st) :
    allStoppedL (stopCurrentStream st).allocated := by
  cases href : st.streamRef with
  | none =>
    have heq : stopCurrentStream st = st := by simp [stopCurrentStream, href]
    rw [heq]
    exact h.1 href
  | some i =>
    obtain ⟨hlen, hprev⟩ := h.2 i href
    have hi : i < st.allocated.length := by omega
    have halloc : (stopCurrentStream st).allocated = stopAt st.allocated i := by
      simp [stopCurrentStream, href]
    rw [halloc]
    intro j hj
    rw [stopAt_length] at hj
    by_cases hji : j = i
    · subst hji
      rw [stopAt_getD_eq st.allocated j hi]
      exact streamLive_stopAll _
    · rw [stopAt_getD_ne st.allocated i j hji]
      exact hprev j (by omega)

theorem allStoppedL_countP (l : List (List Bool)) (h : allStoppedL l) :
    l.countP (fun s => streamLive s) = 0 := by
  induction l with
  | nil => rfl
  | cons s rest ih =>
    have h0 : streamLive s = false := by simpa using h 0 (by simp)
    have h' : allStoppedL rest := by
      intro j hj
      simpa using h (j + 1) (by simpa using Nat.succ_lt_succ hj)
    simp [List.countP_cons, h0, ih h']

/-- Effect of one successful `requestCameraPermission` on the stream
store: the shape invariant is preserved, exactly one stream is grown,
the new one is referenced, and (with a nonempty track set) it is the
unique live stream. -/
theorem rcp_ok_good (st : CameraState) (k : Nat) (h : GoodShape st) :
    GoodShape (requestCameraPermission st (Except.ok k)) ∧
    (requestCameraPermission st (Except.ok k)).allocated.length = st.allocated.length + 1 ∧
    (requestCameraPermission st (Except.ok k)).streamRef = some st.allocated.length ∧
    (0 < k → liveCount (requestCameraPermission st (Except.ok k)) = 1) ∧
    liveCount (requestCameraPermission st (Except.ok k)) ≤ 1 := by
  have hstop : allStoppedL (stopCurrentStream st).allocated := scs_allStopped st h
  have hslen : (stopCurrentStream st).allocated.length = st.allocated.length :=
    scs_alloc_length st
  rw [rcp_ok_eq]
  have halloc := onGumSuccess_allocated (stopCurrentStream st) k
  have href := onGumSuccess_streamRef (stopCurrentStream st) k
  have hlen : (onGumSuccess (stopCurrentStream st) k).allocated.length =
      st.allocated.length + 1 := by
    rw [halloc]
    simp [hslen]
  have hcount : (onGumSuccess (stopCurrentStream st) k).allocated.countP
      (fun s => streamLive s) = (if 0 < k then 1 else 0) := by
    rw [halloc, List.countP_append, allStoppedL_countP _ hstop]
    simp [List.countP_cons, streamLive_replicate_false]
  refine ⟨⟨?_, ?_⟩, hlen, by rw [href, hslen], ?_, ?_⟩
  · intro hnone
    rw [href] at hnone
    simp at hnone
  · intro i hi
    rw [href, hslen] at hi
    have hieq : i = st.allocated.length := by
      injection hi with hi
      omega
    subst hieq
    refine ⟨by omega, ?_⟩
    intro j hj
    rw [halloc, List.getD_append _ _ _ _ (by omega)]
    exact hstop j (by omega)
  · intro hk
    rw [liveCount, hcount, if_pos hk]
  · rw [liveCount, hcount]
    split <;> omega

/-- Folding successful acquisitions preserves the shape invariant and
the at-most-one-live bound, and a nonempty run ends with the reference
on the last allocated stream, which is the unique live one. -/
theorem iterate_ok_good (outcomes : List (Except String Nat)) (st : CameraState)
    (h : GoodShape st) (hlc : liveCount st ≤ 1)
    (hall : ∀ o ∈ outcomes, isOkPos o = true) :
    GoodShape (iterateRequests st outcomes) ∧
    liveCount (iterateRequests st outcomes) ≤ 1 ∧
    (¬ outcomes = [] → liveCount (iterateRequests st outcomes) = 1 ∧
      ∃ i, (iterateRequests st outcomes).streamRef = some i ∧
        i + 1 = (iterateRequests st outcomes).allocated.length) := by
  induction outcomes generalizing st with
  | nil => exact ⟨h, hlc, fun hne => absurd rfl hne⟩
  | cons o rest ih =>
    have ho : isOkPos o = true := hall o (by simp)
    obtain ⟨k, hk, hkpos⟩ : ∃ k, o = Except.ok k ∧ 0 < k := by
      cases o with
      | ok k => exact ⟨k, rfl, by simpa [isOkPos] using ho⟩
      | error e => simp [isOkPos] at ho
    subst hk
    obtain ⟨hg1, hlen2, hrefl, hone, hle⟩ := rcp_ok_good st k h
    have hstep : iterateRequests st (Except.ok k :: rest) =
        iterateRequests (requestCameraPermission st (Except.ok k)) rest := rfl
    rw [hstep]
    cases rest with
    | nil =>
      exact ⟨hg1, hle, fun _ => ⟨hone hkpos, st.allocated.length, hrefl, hlen2.symm⟩⟩
    | cons o2 rest2 =>
      have hall' : ∀ o ∈ o2 :: rest2, isOkPos o = true :=
        fun o hm => hall o (List.mem_cons_of_mem _ hm)
      obtain ⟨g2, l2, h2⟩ := ih (requestCameraPermission st (Except.ok k)) hg1 hle hall'
      exact ⟨g2, l2, fun _ => h2 (by simp)⟩

/-- C1: for every sequence of N ≥ 1 consecutive successful
`requestCameraPermission` calls from a freshly mounted component,
exactly one stream is live afterwards, every stream allocated before
the last one reports all tracks stopped, and at every intermediate
point of the sequence at most one stream is live. -/
theorem claim1_single_active_stream (sv : Option String) (w va : Bool)
    (outcomes : List (Except String Nat))
    (hall : ∀ o ∈ outcomes, isOkPos o = true) (hne : ¬ outcomes = []) :
    liveCount (iterateRequests (cameraInit sv w va) outcomes) = 1 ∧
    (∀ j, j + 1 < (iterateRequests (cameraInit sv w va) outcomes).allocated.length →
      streamLive ((iterateRequests (cameraInit sv w va) outcomes).allocated.getD j []) =
        false) ∧
    (∀ n, liveCount (iterateRequests (cameraInit sv w va) (outcomes.take n)) ≤ 1) := by
  have hinit : GoodShape (cameraInit sv w va) := by
    constructor
    · intro _ j hj
      simp [cameraInit] at hj
    · intro i hi
      simp [cameraInit] at hi
  have hlc : liveCount (cameraInit sv w va) ≤ 1 := by simp [liveCount, cameraInit]
  obtain ⟨hg, hle, hne'⟩ := iterate_ok_good outcomes (cameraInit sv w va) hinit hlc hall
  obtain ⟨h1, i, hsr, hlen⟩ := hne' hne
  refine ⟨h1, ?_, ?_⟩
  · intro j hj
    exact (hg.2 i hsr).2 j (by omega)
  · intro n
    have hall' : ∀ o ∈ outcomes.take n, isOkPos o = true :=
      fun o ho => hall o (List.take_subset n outcomes ho)
    exact (iterate_ok_good (outcomes.take n) (cameraInit sv w va) hinit hlc hall').2.1

theorem claim1_witness :
    liveCount (iterateRequests (cameraInit none true true) [Except.ok 2, Except.ok 1]) = 1 ∧
    streamLive ((iterateRequests (cameraInit none true true)
      [Except.ok 2, Except.ok 1]).allocated.getD 0 []) = false ∧
    liveCount (iterateRequests (cameraInit none true true)
      (List.take 1 [Except.ok 2, Except.ok 1])) ≤ 1 := by
  have h := claim1_single_active_stream none true true [Except.ok 2, Except.ok 1]
    (by decide) (List.cons_ne_nil _ _)
  exact ⟨h.1, h.2.1 0 (by decide), h.2.2 1⟩

end BugDetector
